import Mathlib

/-!
# Verification of `check_jobs.py` (ms-job-watcher)

Shallow embedding of the job-watcher pipeline: JSON values as an inductive
tree, the extractor (`find_jobs_list`, `fetch_top_job`), the state store
(`get_last_seen_id` / `set_last_seen_id`), the notifier outcome, and the
orchestrator (`check_search`, `main`), together with theorems about the
behaviour of each stage.

Machine-level conventions: JSON numbers are modelled as integers (the
script only ever hashes / stringifies them); strings are Lean `String`s;
a Python value `None` (absent key, JSON `null`) is the `jnull` constructor.
-/

/-- A JSON value, as produced by `resp.json()`: objects keep the document
order of their fields (Python `dict` preserves insertion order). -/
inductive JValue where
  | jnull : JValue
  | jbool : Bool → JValue
  | jnum : Int → JValue
  | jstr : String → JValue
  | jarr : List JValue → JValue
  | jobj : List (String × JValue) → JValue
deriving Repr

namespace JValue

/-- Python truthiness of a JSON-derived value: `None`, `False`, `0`, `""`,
`[]` and `\x7b\x7d` are falsy, everything else truthy. -/
def truthy : JValue → Bool
  | .jnull => false
  | .jbool b => b
  | .jnum n => n != 0
  | .jstr s => s != ""
  | .jarr xs => !xs.isEmpty
  | .jobj fs => !fs.isEmpty

end JValue

open JValue

/-- `d.get(k)` on a parsed JSON object: the value stored under `k`, or
`None` (`jnull`) when the key is absent. -/
def lookupJ (fields : List (String × JValue)) (k : String) : JValue :=
  match fields.find? (fun p => p.1 == k) with
  | some p => p.2
  | none => .jnull

/-- Python `a or b` on JSON-derived values: `a` if truthy, else `b`. -/
def pyOr (a b : JValue) : JValue :=
  if a.truthy then a else b

/-- Drop leading whitespace characters. -/
def dropWS : List Char → List Char
  | [] => []
  | c :: rest => if c.isWhitespace then dropWS rest else c :: rest

/-- Python `s.strip()`: remove leading and trailing whitespace.  (Python
strips a slightly larger Unicode whitespace class; the ASCII whitespace
of `Char.isWhitespace` covers everything this program meets.) -/
def pyStrip (s : String) : String :=
  ⟨(dropWS ((dropWS s.data).reverse)).reverse⟩

/-- One step list of Python `s.replace(old, new)` on characters, with
explicit fuel (always called with fuel = length, which suffices since
each step consumes at least one character when `pat` is non-empty). -/
def replaceGo (pat rep : List Char) : Nat → List Char → List Char
  | _, [] => []
  | 0, l => l
  | fuel + 1, c :: rest =>
    if pat.isPrefixOf (c :: rest) then
      rep ++ replaceGo pat rep fuel ((c :: rest).drop pat.length)
    else c :: replaceGo pat rep fuel rest

/-- Python `s.replace(old, new)` (all occurrences, left to right); the
one call site uses the non-empty pattern `"/api/pcsx/search"`. -/
def strReplace (s old new : String) : String :=
  if old = "" then s else ⟨replaceGo old.data new.data s.data.length s.data⟩

/-- A single-quote character, used by Python `repr` of strings. -/
def squote : String := String.singleton (Char.ofNat 39)

/-- Literal opening brace (Python `repr`/JSON object delimiter). -/
def lbrace : String := "\x7b"

/-- Literal closing brace. -/
def rbrace : String := "\x7d"

/-- Comma-space separator, as in `", ".join(...)` and `json.dumps`. -/
def joinComma (parts : List String) : String :=
  match parts with
  | [] => ""
  | p :: rest => rest.foldl (fun acc q => acc ++ ", " ++ q) p

/-- Python `repr` of a string: quote-delimited. Python prefers single
quotes, switching to double quotes when the text contains a single quote
but no double quote; backslashes and the delimiter are escaped. Control
characters beyond `\n`, `\r`, `\t` are left as-is (they do not occur in
the fields this program handles). -/
def pyReprStr (s : String) : String :=
  let esc := fun (quote : Char) (t : String) =>
    t.data.foldl
      (fun acc c =>
        acc ++
          (if c = '\\' then "\\\\"
           else if c = quote then "\\" ++ String.singleton quote
           else if c = '\n' then "\\n"
           else if c = '\r' then "\\r"
           else if c = '\t' then "\\t"
           else String.singleton c))
      ""
  if s.contains (Char.ofNat 39) && !s.contains '"' then
    "\"" ++ esc '"' s ++ "\""
  else
    squote ++ esc (Char.ofNat 39) s ++ squote

mutual
/-- Python `repr` of a JSON-derived value (what `str` delegates to for
containers): `None`/`True`/`False`, decimal integers, quoted strings,
`[...]` lists and `\x7b'k': v\x7d` dicts. -/
def pyRepr : JValue → String
  | .jnull => "None"
  | .jbool true => "True"
  | .jbool false => "False"
  | .jnum n => toString n
  | .jstr s => pyReprStr s
  | .jarr xs => "[" ++ joinComma (pyReprList xs) ++ "]"
  | .jobj fs => lbrace ++ joinComma (pyReprFields fs) ++ rbrace

/-- `repr` of each element of a list. -/
def pyReprList : List JValue → List String
  | [] => []
  | x :: xs => pyRepr x :: pyReprList xs

/-- `repr` of each `'key': value` entry of a dict. -/
def pyReprFields : List (String × JValue) → List String
  | [] => []
  | (k, v) :: fs => (pyReprStr k ++ ": " ++ pyRepr v) :: pyReprFields fs
end

/-- Python `str` of a JSON-derived value: identity on strings,
`None`/`True`/`False` keywords, decimal for numbers, `repr` for
containers. -/
def pyStr : JValue → String
  | .jnull => "None"
  | .jbool true => "True"
  | .jbool false => "False"
  | .jnum n => toString n
  | .jstr s => s
  | .jarr xs => pyRepr (.jarr xs)
  | .jobj fs => pyRepr (.jobj fs)

/-! ## `json.dumps(job, sort_keys=True)` -/

/-- Lowercase hexadecimal digit. -/
def hexDigit (n : Nat) : Char :=
  if n < 10 then Char.ofNat (48 + n) else Char.ofNat (87 + n)

/-- Four lowercase hex digits (`\uXXXX` escapes). -/
def hex4 (n : Nat) : String :=
  String.mk [hexDigit (n / 4096 % 16), hexDigit (n / 256 % 16),
             hexDigit (n / 16 % 16), hexDigit (n % 16)]

/-- JSON escaping of one character as `json.dumps` does with the default
`ensure_ascii=True`: printable ASCII other than `"` and `\` is literal,
the short escapes cover the usual controls, every other code point
becomes `\uXXXX` (a surrogate pair above `U+FFFF`). -/
def escJsonChar (c : Char) : String :=
  if c = '"' then "\\\""
  else if c = '\\' then "\\\\"
  else if c = '\n' then "\\n"
  else if c = '\r' then "\\r"
  else if c = '\t' then "\\t"
  else if c.toNat = 8 then "\\b"
  else if c.toNat = 12 then "\\f"
  else if 32 ≤ c.toNat ∧ c.toNat ≤ 126 then String.singleton c
  else if c.toNat < 65536 then "\\u" ++ hex4 c.toNat
  else
    "\\u" ++ hex4 (55296 + (c.toNat - 65536) / 1024) ++
    "\\u" ++ hex4 (56320 + (c.toNat - 65536) % 1024)

/-- A JSON string literal: `"` + escaped text + `"`. -/
def jsonQuote (s : String) : String :=
  "\"" ++ String.join (s.data.map escJsonChar) ++ "\""

mutual
/-- Plain `json.dumps` serialization (default separators `", "` and
`": "`), printing object fields in their list order.  Applied after
`canonize` this is exactly `json.dumps(job, sort_keys=True)`, which sorts
keys at every nesting level while serializing. -/
def dumps : JValue → String
  | .jnull => "null"
  | .jbool true => "true"
  | .jbool false => "false"
  | .jnum n => toString n
  | .jstr s => jsonQuote s
  | .jarr xs => "[" ++ joinComma (dumpsList xs) ++ "]"
  | .jobj fs => lbrace ++ joinComma (dumpsFields fs) ++ rbrace

/-- Serialization of each array element. -/
def dumpsList : List JValue → List String
  | [] => []
  | x :: xs => dumps x :: dumpsList xs

/-- Serialization of each `"key": value` object entry. -/
def dumpsFields : List (String × JValue) → List String
  | [] => []
  | (k, v) :: fs => (jsonQuote k ++ ": " ++ dumps v) :: dumpsFields fs
end

/-- Lexicographic order on character lists by code point — how Python
compares strings (and `sorted` orders keys). -/
def lexLe : List Char → List Char → Bool
  | [], _ => true
  | _ :: _, [] => false
  | a :: as, b :: bs =>
    if a.toNat < b.toNat then true
    else if b.toNat < a.toNat then false
    else lexLe as bs

/-- Python string comparison `s <= t`. -/
def strLeB (s t : String) : Bool := lexLe s.data t.data

/-- Key order used by `sort_keys=True`: compare field keys. -/
def keyLE (p q : String × JValue) : Prop := strLeB p.1 q.1 = true

instance : DecidableRel keyLE := fun p q =>
  inferInstanceAs (Decidable (strLeB p.1 q.1 = true))

lemma lexLe_total : ∀ a b : List Char, lexLe a b = true ∨ lexLe b a = true := by
  intro a
  induction a with
  | nil => intro b; exact Or.inl rfl
  | cons c as ih =>
    intro b
    cases b with
    | nil => exact Or.inr rfl
    | cons d bs =>
      by_cases h1 : c.toNat < d.toNat
      · left
        simp [lexLe, h1]
      · by_cases h2 : d.toNat < c.toNat
        · right
          simp [lexLe, h2]
        · cases ih bs with
          | inl h => left; simp [lexLe, h1, h2, h]
          | inr h => right; simp [lexLe, h1, h2, h]

lemma lexLe_trans : ∀ a b c : List Char,
    lexLe a b = true → lexLe b c = true → lexLe a c = true := by
  intro a
  induction a with
  | nil => intro b c _ _; rfl
  | cons x as ih =>
    intro b c hab hbc
    cases b with
    | nil => simp [lexLe] at hab
    | cons y bs =>
      cases c with
      | nil => simp [lexLe] at hbc
      | cons z cs =>
        simp only [lexLe] at hab hbc ⊢
        by_cases h1 : x.toNat < y.toNat
        · by_cases h2 : y.toNat < z.toNat
          · rw [if_pos (by omega)]
          · by_cases h3 : z.toNat < y.toNat
            · rw [if_neg h2, if_pos h3] at hbc
              simp at hbc
            · rw [if_pos (by omega)]
        · by_cases h4 : y.toNat < x.toNat
          · rw [if_neg h1, if_pos h4] at hab
            simp at hab
          · by_cases h2 : y.toNat < z.toNat
            · rw [if_pos (by omega)]
            · by_cases h3 : z.toNat < y.toNat
              · rw [if_neg h2, if_pos h3] at hbc
                simp at hbc
              · rw [if_neg h1, if_neg h4] at hab
                rw [if_neg h2, if_neg h3] at hbc
                rw [if_neg (by omega), if_neg (by omega)]
                exact ih bs cs hab hbc

lemma lexLe_antisymm : ∀ a b : List Char,
    lexLe a b = true → lexLe b a = true → a = b := by
  intro a
  induction a with
  | nil =>
    intro b _ hba
    cases b with
    | nil => rfl
    | cons d bs => simp [lexLe] at hba
  | cons c as ih =>
    intro b hab hba
    cases b with
    | nil => simp [lexLe] at hab
    | cons d bs =>
      simp only [lexLe] at hab hba
      by_cases h1 : c.toNat < d.toNat
      · rw [if_neg (Nat.lt_asymm h1), if_pos h1] at hba
        simp at hba
      · by_cases h2 : d.toNat < c.toNat
        · rw [if_neg h1, if_pos h2] at hab
          simp at hab
        · rw [if_neg h1, if_neg h2] at hab
          rw [if_neg h2, if_neg h1] at hba
          have hcd : c.toNat = d.toNat :=
            Nat.le_antisymm (Nat.not_lt.mp h2) (Nat.not_lt.mp h1)
          have hc : c = d := Char.ext (UInt32.ext hcd)
          rw [hc, ih bs hab hba]

lemma strLeB_antisymm {s t : String} (h1 : strLeB s t = true)
    (h2 : strLeB t s = true) : s = t :=
  String.ext (lexLe_antisymm _ _ h1 h2)

instance : IsTotal (String × JValue) keyLE :=
  ⟨fun p q => lexLe_total p.1.data q.1.data⟩

instance : IsTrans (String × JValue) keyLE :=
  ⟨fun _ _ _ h1 h2 => lexLe_trans _ _ _ h1 h2⟩

mutual
/-- Recursively sort every object's fields by key — the canonical form
`sort_keys=True` serializes.  (Python's `sorted` is stable, as is
`List.insertionSort`; with the distinct keys of a `dict` stability is
irrelevant anyway.) -/
def canonize : JValue → JValue
  | .jnull => .jnull
  | .jbool b => .jbool b
  | .jnum n => .jnum n
  | .jstr s => .jstr s
  | .jarr xs => .jarr (canonizeList xs)
  | .jobj fs => .jobj (List.insertionSort keyLE (canonizeFields fs))

/-- Canonical form of each array element. -/
def canonizeList : List JValue → List JValue
  | [] => []
  | x :: xs => canonize x :: canonizeList xs

/-- Canonical form of each object field's value. -/
def canonizeFields : List (String × JValue) → List (String × JValue)
  | [] => []
  | (k, v) :: fs => (k, canonize v) :: canonizeFields fs
end

/-! ## MD5 (`hashlib.md5(...).hexdigest()`)

Bytes are `Nat`s below 256, 32-bit words are `Nat`s reduced `% 2^32`.
`dumps` output is pure ASCII by construction (everything outside
printable ASCII is `\u`-escaped), so its UTF-8 encoding is the list of
character code points. -/

/-- UTF-8 bytes of an ASCII string (all `dumps` outputs are ASCII). -/
def strBytes (s : String) : List Nat := s.data.map Char.toNat

/-- 2^32. -/
def M32 : Nat := 4294967296

/-- 32-bit complement. -/
def wnot (x : Nat) : Nat := x ^^^ 4294967295

/-- 32-bit left rotation. -/
def rotl32 (x s : Nat) : Nat := ((x <<< s) ||| (x >>> (32 - s))) % M32

/-- The 64 MD5 sine-derived constants. -/
def md5K : List Nat :=
  [0xd76aa478, 0xe8c7b756, 0x242070db, 0xc1bdceee,
   0xf57c0faf, 0x4787c62a, 0xa8304613, 0xfd469501,
   0x698098d8, 0x8b44f7af, 0xffff5bb1, 0x895cd7be,
   0x6b901122, 0xfd987193, 0xa679438e, 0x49b40821,
   0xf61e2562, 0xc040b340, 0x265e5a51, 0xe9b6c7aa,
   0xd62f105d, 0x02441453, 0xd8a1e681, 0xe7d3fbc8,
   0x21e1cde6, 0xc33707d6, 0xf4d50d87, 0x455a14ed,
   0xa9e3e905, 0xfcefa3f8, 0x676f02d9, 0x8d2a4c8a,
   0xfffa3942, 0x8771f681, 0x6d9d6122, 0xfde5380c,
   0xa4beea44, 0x4bdecfa9, 0xf6bb4b60, 0xbebfbc70,
   0x289b7ec6, 0xeaa127fa, 0xd4ef3085, 0x04881d05,
   0xd9d4d039, 0xe6db99e5, 0x1fa27cf8, 0xc4ac5665,
   0xf4292244, 0x432aff97, 0xab9423a7, 0xfc93a039,
   0x655b59c3, 0x8f0ccc92, 0xffeff47d, 0x85845dd1,
   0x6fa87e4f, 0xfe2ce6e0, 0xa3014314, 0x4e0811a1,
   0xf7537e82, 0xbd3af235, 0x2ad7d2bb, 0xeb86d391]

/-- The 64 per-round left-rotation amounts. -/
def md5S : List Nat :=
  [7, 12, 17, 22, 7, 12, 17, 22, 7, 12, 17, 22, 7, 12, 17, 22,
   5, 9, 14, 20, 5, 9, 14, 20, 5, 9, 14, 20, 5, 9, 14, 20,
   4, 11, 16, 23, 4, 11, 16, 23, 4, 11, 16, 23, 4, 11, 16, 23,
   6, 10, 15, 21, 6, 10, 15, 21, 6, 10, 15, 21, 6, 10, 15, 21]

/-- Little-endian 64-bit length footer of the padding. -/
def lenBytesLE (n : Nat) : List Nat :=
  (List.range 8).map (fun i => n / 256 ^ i % 256)

/-- MD5 padding: `0x80`, zeros to 56 mod 64, then the bit length. -/
def padMessage (msg : List Nat) : List Nat :=
  msg ++ [128] ++ List.replicate ((119 - msg.length % 64) % 64) 0 ++
    lenBytesLE (msg.length * 8)

/-- Split into 64-byte blocks (fuel = byte count, plenty since every
step consumes 64 bytes). -/
def chunks64Go : Nat → List Nat → List (List Nat)
  | _, [] => []
  | 0, l => [l]
  | fuel + 1, x :: xs => ((x :: xs).take 64) :: chunks64Go fuel ((x :: xs).drop 64)

/-- Split into 64-byte blocks. -/
def chunks64 (l : List Nat) : List (List Nat) := chunks64Go l.length l

/-- The sixteen little-endian 32-bit words of one block. -/
def chunkWords (c : List Nat) : List Nat :=
  (List.range 16).map (fun j =>
    c.getD (4 * j) 0 + 256 * c.getD (4 * j + 1) 0 +
    65536 * c.getD (4 * j + 2) 0 + 16777216 * c.getD (4 * j + 3) 0)

/-- One of the 64 MD5 rounds on state `(a, b, c, d)`. -/
def md5Round (M : List Nat) (st : Nat × Nat × Nat × Nat) (i : Nat) :
    Nat × Nat × Nat × Nat :=
  let (a, b, c, d) := st
  let fg : Nat × Nat :=
    if i < 16 then ((b &&& c) ||| (wnot b &&& d), i)
    else if i < 32 then ((d &&& b) ||| (wnot d &&& c), (5 * i + 1) % 16)
    else if i < 48 then (b ^^^ c ^^^ d, (3 * i + 5) % 16)
    else (c ^^^ (b ||| wnot d), (7 * i) % 16)
  let f2 := (fg.1 + a + md5K.getD i 0 + M.getD fg.2 0) % M32
  (d, (b + rotl32 f2 (md5S.getD i 0)) % M32, b, c)

/-- Process one 64-byte block. -/
def md5Chunk (st : Nat × Nat × Nat × Nat) (chunk : List Nat) :
    Nat × Nat × Nat × Nat :=
  let M := chunkWords chunk
  let r := (List.range 64).foldl (md5Round M) st
  ((st.1 + r.1) % M32, (st.2.1 + r.2.1) % M32,
   (st.2.2.1 + r.2.2.1) % M32, (st.2.2.2 + r.2.2.2) % M32)

/-- Little-endian bytes of one 32-bit word. -/
def wordLE (w : Nat) : List Nat :=
  [w % 256, w / 256 % 256, w / 65536 % 256, w / 16777216 % 256]

/-- The 16-byte MD5 digest of a byte string. -/
def md5Bytes (msg : List Nat) : List Nat :=
  let r := (chunks64 (padMessage msg)).foldl md5Chunk
    (0x67452301, 0xefcdab89, 0x98badcfe, 0x10325476)
  wordLE r.1 ++ wordLE r.2.1 ++ wordLE r.2.2.1 ++ wordLE r.2.2.2

/-- Two lowercase hex digits of a byte. -/
def byteHex (b : Nat) : String := String.mk [hexDigit (b / 16 % 16), hexDigit (b % 16)]

/-- Lowercase hex rendering of a byte string. -/
def bytesToHex : List Nat → String
  | [] => ""
  | b :: bs => byteHex b ++ bytesToHex bs

/-- `hashlib.md5(text.encode("utf-8")).hexdigest()`. -/
def md5Hex (s : String) : String := bytesToHex (md5Bytes (strBytes s))

/-! ## The extractor: `find_jobs_list` and `fetch_top_job` -/

mutual
/-- `find_jobs_list(node)` (check_jobs.py:44-63): depth-first search for
the first non-empty list whose first element is a dict; lists are probed
before descending into their items, dict values are searched in order,
scalars yield nothing. -/
def find_jobs_list : JValue → Option (List JValue)
  | .jarr xs =>
    match xs with
    | .jobj fs :: rest => some (.jobj fs :: rest)
    | _ => findInList xs
  | .jobj fs => findInFields fs
  | _ => none

/-- The `for item in node:` loop over a list's items. -/
def findInList : List JValue → Option (List JValue)
  | [] => none
  | x :: xs =>
    match find_jobs_list x with
    | some l => some l
    | none => findInList xs

/-- The `for v in node.values():` loop over a dict's values. -/
def findInFields : List (String × JValue) → Option (List JValue)
  | [] => none
  | (_, v) :: fs =>
    match find_jobs_list v with
    | some l => some l
    | none => findInFields fs
end

mutual
/-- All subtrees of a JSON tree in depth-first preorder: the node itself,
then the subtrees of its children left to right (dict children are its
values).  This is the visiting order of `find_jobs_list`. -/
def subtrees : JValue → List JValue
  | .jarr xs => .jarr xs :: subtreesList xs
  | .jobj fs => .jobj fs :: subtreesFields fs
  | v => [v]

/-- Preorder subtrees of a list of children. -/
def subtreesList : List JValue → List JValue
  | [] => []
  | x :: xs => subtrees x ++ subtreesList xs

/-- Preorder subtrees of a dict's values. -/
def subtreesFields : List (String × JValue) → List JValue
  | [] => []
  | (_, v) :: fs => subtrees v ++ subtreesFields fs
end

/-- The test `node and isinstance(node[0], dict)` of `find_jobs_list`: a
non-empty list whose first element is a dict. -/
def isJobsHead : JValue → Bool
  | .jarr (.jobj _ :: _) => true
  | _ => false

/-- The spec's notion of a "collection of records": a non-empty sequence
whose elements are all mappings. -/
def specCollection : JValue → Bool
  | .jarr xs => !xs.isEmpty && xs.all (fun v => match v with | .jobj _ => true | _ => false)
  | _ => false

/-- The list carried by a `jarr` (the payload `find_jobs_list` returns). -/
def unArr : JValue → List JValue
  | .jarr xs => xs
  | _ => []

/-- Title resolution (check_jobs.py:99-103): `name`/`title`/`jobTitle`
fallback chain, accepted only when a string with non-blank strip. -/
def resolve_title (job : List (String × JValue)) : String :=
  let raw := pyOr (lookupJ job "name") (pyOr (lookupJ job "title") (lookupJ job "jobTitle"))
  match raw with
  | .jstr s => if pyStrip s != "" then pyStrip s else "Unknown title"
  | _ => "Unknown title"

/-- Identifier fallback chain (check_jobs.py:106-111):
`id`/`displayJobId`/`position_id`/`positionId`, first truthy value. -/
def idChain (job : List (String × JValue)) : JValue :=
  pyOr (lookupJ job "id")
    (pyOr (lookupJ job "displayJobId")
      (pyOr (lookupJ job "position_id") (lookupJ job "positionId")))

/-- The `str(job_id)` returned for a job (check_jobs.py:106-113, 139): a
truthy candidate field stringified, else the MD5 hex digest of
`json.dumps(job, sort_keys=True)`. -/
def resolve_id (job : List (String × JValue)) : String :=
  let c := idChain job
  if c.truthy then pyStr c else md5Hex (dumps (canonize (.jobj job)))

/-- Location formatting (check_jobs.py:116-128): `locations` /
`standardizedLocations` chain; a non-empty list with a dict first element
joins that dict's truthy values, any other non-empty list joins all
elements, a non-blank string is stripped, everything else is the
sentinel. -/
def resolve_location (job : List (String × JValue)) : String :=
  let locs := pyOr (lookupJ job "locations") (lookupJ job "standardizedLocations")
  match locs with
  | .jarr (first :: rest) =>
    match first with
    | .jobj fs =>
      let parts := ((fs.map Prod.snd).filter truthy).map pyStr
      if parts.isEmpty then "Unknown location" else joinComma parts
    | _ => joinComma ((first :: rest).map pyStr)
  | .jstr s => if pyStrip s != "" then pyStrip s else "Unknown location"
  | _ => "Unknown location"

/-- Job URL resolution (check_jobs.py:131-136):
`applyUrl`/`detailsUrl`/`detailsURL`, else the search URL with
`/api/pcsx/search` replaced by `/careers`. -/
def resolve_url (job : List (String × JValue)) (search_url : String) : JValue :=
  pyOr (lookupJ job "applyUrl")
    (pyOr (lookupJ job "detailsUrl")
      (pyOr (lookupJ job "detailsURL")
        (.jstr (strReplace search_url "/api/pcsx/search" "/careers"))))

/-- The description `f"\x7btitle\x7d\n\x7blocation\x7d\n\x7bjob_url\x7d"`. -/
def resolve_desc (job : List (String × JValue)) (search_url : String) : String :=
  resolve_title job ++ "\n" ++ resolve_location job ++ "\n" ++ pyStr (resolve_url job search_url)

/-- The pure tail of `fetch_top_job` after a decoded body (check_jobs.py:
85-139): locate the jobs list, require a dict first entry, and build
`(str(job_id), desc)`; `none` is the `(None, None)` soft-failure return. -/
def extract_top_job (data : JValue) (search_url : String) : Option (String × String) :=
  match find_jobs_list data with
  | none => none
  | some jobs =>
    match jobs with
    | [] => none
    | job :: _ =>
      match job with
      | .jobj fields => some (resolve_id fields, resolve_desc fields search_url)
      | _ => none

/-- An HTTP response as `requests` hands it back: final status code and
the JSON decode of the body (`none` when `resp.json()` raises). -/
structure HttpResponse where
  status : Nat
  body : Option JValue

/-- `requests.Response.raise_for_status()` raises exactly for client and
server errors, i.e. status codes 400-599. -/
def raisesForStatus (status : Nat) : Bool := 400 ≤ status && status < 600

/-- `fetch_top_job` (check_jobs.py:66-139) as a function of the response
it receives: an HTTPError status or an undecodable body is caught inside
and yields the `(None, None)` return, otherwise the extractor runs. -/
def fetch_top_job (r : HttpResponse) (search_url : String) : Option (String × String) :=
  if raisesForStatus r.status then none
  else
    match r.body with
    | none => none
    | some data => extract_top_job data search_url

/-! ## State store, notifier, orchestrator -/

/-- `get_last_seen_id` (check_jobs.py:142-145): `none` when the state
file does not exist, else its content stripped. -/
def get_last_seen_id (file : Option String) : Option String :=
  file.map (fun c => pyStrip c)

/-- `set_last_seen_id` (check_jobs.py:148-149): overwrite the file with
the raw identifier (no added newline, no strip). -/
def set_last_seen_id (job_id : String) : Option String :=
  some job_id

/-- The Telegram message `check_search` sends for a new job. -/
def alertMsg (label desc : String) : String :=
  "🚨 New job detected for " ++ label ++ " search:\n\n" ++ desc

/-- What a call to `fetch_top_job` did: `raised` when `requests.get`
(or anything else in it) raised an exception — caught by `check_search`'s
`try` — and `resp r` when a response came back. -/
inductive FetchInput where
  | raised : FetchInput
  | resp : HttpResponse → FetchInput

/-- Result of one `check_search` call: the Telegram messages POSTed (in
order), the state file content afterwards, and whether an exception
escaped the function (only `send_telegram_message` can raise past the
`try`, which guards the fetch alone). -/
structure SearchResult where
  notified : List String
  stateFile : Option String
  raised : Bool
deriving Repr

/-- `check_search` (check_jobs.py:193-215) over one run: `fi` is the
fetch's fate, `file` the current state file content (`none` = absent),
`tgStatus` the status the Telegram API would answer the POST with.  The
`try` catches only the fetch; a 4xx/5xx notify status makes
`send_telegram_message`'s `raise_for_status` raise out of the function
before `set_last_seen_id` runs. -/
def check_search (label search_url : String) (fi : FetchInput)
    (file : Option String) (tgStatus : Nat) : SearchResult :=
  match fi with
  | .raised => ⟨[], file, false⟩
  | .resp r =>
    match fetch_top_job r search_url with
    | none => ⟨[], file, false⟩
    | some (job_id, desc) =>
      if job_id = "" then ⟨[], file, false⟩
      else if get_last_seen_id file = some job_id then ⟨[], file, false⟩
      else
        let msg := alertMsg label desc
        if raisesForStatus tgStatus then ⟨[msg], file, true⟩
        else ⟨[msg], set_last_seen_id job_id, false⟩

/-- The IC2 search URL (check_jobs.py:17-25). -/
def SEARCH_URL_IC2 : String :=
  "https://apply.careers.microsoft.com/api/pcsx/search?domain=microsoft.com&query=IC2&location=United%20States&start=0&sort_by=timestamp&filter_include_remote=1"

/-- The Software Engineer search URL (check_jobs.py:28-36). -/
def SEARCH_URL_SWE : String :=
  "https://apply.careers.microsoft.com/api/pcsx/search?domain=microsoft.com&query=Software%20Engineer&location=United%20States&start=0&sort_by=timestamp&filter_include_remote=1"

/-- Result of one `main()` invocation: both state files, both message
lists, whether the second search was reached, and whether an exception
escaped `main`. -/
structure MainResult where
  stateIC2 : Option String
  stateSWE : Option String
  notifiedIC2 : List String
  notifiedSWE : List String
  processedSWE : Bool
  raisedOut : Bool
deriving Repr

/-- `main` (check_jobs.py:218-226): the two `check_search` calls in
order.  Nothing in `main` catches, so an exception from the first call
skips the second search (and `commit_if_changed`) entirely. -/
def mainRun (fi1 : FetchInput) (file1 : Option String) (tg1 : Nat)
    (fi2 : FetchInput) (file2 : Option String) (tg2 : Nat) : MainResult :=
  let r1 := check_search "IC2" SEARCH_URL_IC2 fi1 file1 tg1
  if r1.raised then
    ⟨r1.stateFile, file2, r1.notified, [], false, true⟩
  else
    let r2 := check_search "Software Engineer (US)" SEARCH_URL_SWE fi2 file2 tg2
    ⟨r1.stateFile, r2.stateFile, r1.notified, r2.notified, true, r2.raised⟩

/-! ## Basic lemmas -/

lemma toDigitsCore_length_le (b : Nat) :
    ∀ (fuel n : Nat) (ds : List Char), ds.length ≤ (Nat.toDigitsCore b fuel n ds).length := by
  intro fuel
  induction fuel with
  | zero => intro n ds; simp [Nat.toDigitsCore]
  | succ f ih =>
    intro n ds
    simp only [Nat.toDigitsCore]
    split
    · simp
    · exact le_trans (by simp) (ih (n / b) ((n % b).digitChar :: ds))

lemma nat_repr_length_pos (n : Nat) : 0 < (Nat.repr n).length := by
  unfold Nat.repr
  rw [List.length_asString]
  unfold Nat.toDigits
  simp only [Nat.toDigitsCore]
  split
  · simp
  · exact lt_of_lt_of_le (by simp) (toDigitsCore_length_le 10 n (n / 10) _)

lemma int_toString_length_pos (i : Int) : 0 < (toString i).length := by
  show 0 < (Int.repr i).length
  cases i with
  | ofNat m => exact nat_repr_length_pos m
  | negSucc m =>
    simp only [Int.repr]
    rw [String.length_append]
    have h1 : ("-" : String).length = 1 := rfl
    omega

lemma length_pos_ne_empty {s : String} (h : 0 < s.length) : s ≠ "" := by
  intro he
  subst he
  simp at h

lemma int_toString_ne_empty (i : Int) : toString i ≠ "" :=
  length_pos_ne_empty (int_toString_length_pos i)

lemma pyStr_ne_empty_of_truthy (v : JValue) (h : truthy v = true) : pyStr v ≠ "" := by
  cases v with
  | jnull => simp [truthy] at h
  | jbool b =>
    cases b with
    | true => simp [pyStr]
    | false => simp [truthy] at h
  | jnum n => exact int_toString_ne_empty n
  | jstr s => simpa [truthy, pyStr] using h
  | jarr xs =>
    apply length_pos_ne_empty
    simp only [pyStr, pyRepr]
    rw [String.length_append, String.length_append]
    have h1 : ("[" : String).length = 1 := rfl
    omega
  | jobj fs =>
    apply length_pos_ne_empty
    simp only [pyStr, pyRepr]
    rw [String.length_append, String.length_append]
    have h1 : lbrace.length = 1 := rfl
    omega

lemma md5Bytes_length (m : List Nat) : (md5Bytes m).length = 16 := by
  simp [md5Bytes, wordLE]

lemma byteHex_length (b : Nat) : (byteHex b).length = 2 := rfl

lemma bytesToHex_length (bs : List Nat) : (bytesToHex bs).length = 2 * bs.length := by
  induction bs with
  | nil => rfl
  | cons b rest ih =>
    show (byteHex b ++ bytesToHex rest).length = _
    rw [String.length_append, byteHex_length, ih]
    simp [Nat.mul_add, Nat.mul_succ]
    ring

lemma md5Hex_length (s : String) : (md5Hex s).length = 32 := by
  unfold md5Hex
  rw [bytesToHex_length, md5Bytes_length]

lemma md5Hex_ne_empty (s : String) : md5Hex s ≠ "" :=
  length_pos_ne_empty (by rw [md5Hex_length]; omega)

lemma resolve_id_ne_empty (job : List (String × JValue)) : resolve_id job ≠ "" := by
  by_cases h : (idChain job).truthy = true
  · simp only [resolve_id]
    rw [if_pos h]
    exact pyStr_ne_empty_of_truthy _ h
  · simp only [resolve_id]
    rw [if_neg h]
    exact md5Hex_ne_empty _

lemma extract_id_ne_empty {data : JValue} {url i d : String}
    (h : extract_top_job data url = some (i, d)) : i ≠ "" := by
  unfold extract_top_job at h
  cases hf : find_jobs_list data with
  | none => rw [hf] at h; simp at h
  | some jobs =>
    rw [hf] at h
    cases jobs with
    | nil => simp at h
    | cons job rest =>
      cases job with
      | jobj fields =>
        simp only [Option.some.injEq, Prod.mk.injEq] at h
        rw [← h.1]
        exact resolve_id_ne_empty fields
      | jnull => simp at h
      | jbool b => simp at h
      | jnum n => simp at h
      | jstr s => simp at h
      | jarr xs => simp at h

lemma fetch_id_ne_empty {r : HttpResponse} {url i d : String}
    (h : fetch_top_job r url = some (i, d)) : i ≠ "" := by
  unfold fetch_top_job at h
  split at h
  · simp at h
  · split at h
    · simp at h
    · exact extract_id_ne_empty h

lemma check_search_raised_eq (label url : String) (st : Option String) (tg : Nat) :
    check_search label url .raised st tg = ⟨[], st, false⟩ := rfl

lemma check_search_fetch_none (label url : String) (r : HttpResponse)
    (st : Option String) (tg : Nat) (h : fetch_top_job r url = none) :
    check_search label url (.resp r) st tg = ⟨[], st, false⟩ := by
  simp only [check_search]
  rw [h]

lemma check_search_seen (label url : String) (r : HttpResponse) (st : Option String)
    (tg : Nat) {i d : String} (hf : fetch_top_job r url = some (i, d))
    (hlast : get_last_seen_id st = some i) :
    check_search label url (.resp r) st tg = ⟨[], st, false⟩ := by
  simp only [check_search]
  rw [hf]
  simp [fetch_id_ne_empty hf, hlast]

lemma check_search_new (label url : String) (r : HttpResponse) (st : Option String)
    (tg : Nat) {i d : String} (hf : fetch_top_job r url = some (i, d))
    (hlast : get_last_seen_id st ≠ some i) :
    check_search label url (.resp r) st tg =
      if raisesForStatus tg then ⟨[alertMsg label d], st, true⟩
      else ⟨[alertMsg label d], some i, false⟩ := by
  simp only [check_search]
  rw [hf]
  simp [fetch_id_ne_empty hf, hlast, set_last_seen_id]

/-! ## Claim theorems: orchestration -/

/-- C1 counterexample: the notification POST answers 304 — a non-success
status, so per the claim the state file must stay unwritten — yet
`raise_for_status` does not raise below 400, so `set_last_seen_id` runs
and the state file is written. -/
theorem notify_status_304_writes_state :
    (check_search "IC2" SEARCH_URL_IC2
        (.resp ⟨200, some (.jarr [.jobj [("id", .jstr "X")]])⟩) none 304).stateFile
      = some "X" ∧ some "X" ≠ (none : Option String) := by
  constructor
  · rfl
  · simp

/-- C1 (amended): if the notification POST fails with a 4xx/5xx status
(what `requests.raise_for_status` treats as failure), the state file is
not written — the stored last-seen identifier is unchanged — and on the
next run the same identifier is retried: another notification attempt is
made. -/
theorem notify_4xx5xx_keeps_state_and_retries
    (r : HttpResponse) (url label : String) (st : Option String) (i d : String)
    (tg tg2 : Nat)
    (hf : fetch_top_job r url = some (i, d))
    (hlast : get_last_seen_id st ≠ some i)
    (htg : 400 ≤ tg ∧ tg < 600) :
    (check_search label url (.resp r) st tg).stateFile = st ∧
    (check_search label url (.resp r) st tg).notified = [alertMsg label d] ∧
    (check_search label url (.resp r) st tg).raised = true ∧
    (check_search label url (.resp r)
        (check_search label url (.resp r) st tg).stateFile tg2).notified
      = [alertMsg label d] := by
  have hrs : raisesForStatus tg = true := by
    simp only [raisesForStatus, Bool.and_eq_true, decide_eq_true_eq]
    exact htg
  have h1 : check_search label url (.resp r) st tg = ⟨[alertMsg label d], st, true⟩ := by
    rw [check_search_new label url r st tg hf hlast, if_pos hrs]
  rw [h1]
  refine ⟨rfl, rfl, rfl, ?_⟩
  rw [check_search_new label url r st tg2 hf hlast]
  split
  · rfl
  · rfl

set_option maxRecDepth 10000 in
/-- Witness for C1 (amended): a concrete new listing `"X"`, empty prior
state, Telegram answering 500. -/
theorem notify_4xx5xx_keeps_state_and_retries_witness :
    (check_search "IC2" SEARCH_URL_IC2
        (.resp ⟨200, some (.jarr [.jobj [("id", .jstr "X")]])⟩) none 500).stateFile = none ∧
    (check_search "IC2" SEARCH_URL_IC2
        (.resp ⟨200, some (.jarr [.jobj [("id", .jstr "X")]])⟩) none 500).raised = true := by
  have h := notify_4xx5xx_keeps_state_and_retries
    ⟨200, some (.jarr [.jobj [("id", .jstr "X")]])⟩ SEARCH_URL_IC2 "IC2" none "X"
    ("Unknown title\nUnknown location\nhttps://apply.careers.microsoft.com/careers?domain=microsoft.com&query=IC2&location=United%20States&start=0&sort_by=timestamp&filter_include_remote=1")
    500 200 (by rfl) (by simp [get_last_seen_id]) (by omega)
  exact ⟨h.1, h.2.2.1⟩

/-- C2 counterexample: a failed notification in the first (IC2) search
raises out of `check_search` — whose `try` guards only the fetch — so the
second configured search is never fetched, compared, or notified in that
invocation. -/
theorem notify_failure_aborts_sibling :
    (mainRun (.resp ⟨200, some (.jarr [.jobj [("id", .jstr "A")]])⟩) none 500
        (.resp ⟨200, some (.jarr [.jobj [("id", .jstr "B")]])⟩) none 200).processedSWE
      = false ∧
    (mainRun (.resp ⟨200, some (.jarr [.jobj [("id", .jstr "A")]])⟩) none 500
        (.resp ⟨200, some (.jarr [.jobj [("id", .jstr "B")]])⟩) none 200).notifiedSWE
      = [] ∧
    (mainRun (.resp ⟨200, some (.jarr [.jobj [("id", .jstr "A")]])⟩) none 500
        (.resp ⟨200, some (.jarr [.jobj [("id", .jstr "B")]])⟩) none 200).raisedOut
      = true := ⟨rfl, rfl, rfl⟩

/-- C2 (amended): errors raised during the fetch, and the soft failure
paths inside `fetch_top_job` (HTTP error status, undecodable body), are
caught per search and never prevent the second search from running; but
a failed notification POST (4xx/5xx) in the first search raises out of
`check_search` and aborts the second search and the rest of the run. -/
theorem fetch_errors_isolated_but_notify_aborts :
    (∀ (st1 : Option String) (tg1 : Nat) (fi2 : FetchInput) (st2 : Option String) (tg2 : Nat),
      (mainRun .raised st1 tg1 fi2 st2 tg2).processedSWE = true) ∧
    (∀ (r : HttpResponse) (st1 : Option String) (tg1 : Nat) (fi2 : FetchInput)
        (st2 : Option String) (tg2 : Nat),
      fetch_top_job r SEARCH_URL_IC2 = none →
      (mainRun (.resp r) st1 tg1 fi2 st2 tg2).processedSWE = true) ∧
    (∀ (r : HttpResponse) (st1 : Option String) (tg1 : Nat) (fi2 : FetchInput)
        (st2 : Option String) (tg2 : Nat) (i d : String),
      fetch_top_job r SEARCH_URL_IC2 = some (i, d) →
      get_last_seen_id st1 ≠ some i →
      raisesForStatus tg1 = true →
      (mainRun (.resp r) st1 tg1 fi2 st2 tg2).processedSWE = false) := by
  refine ⟨?_, ?_, ?_⟩
  · intro st1 tg1 fi2 st2 tg2
    simp [mainRun, check_search_raised_eq]
  · intro r st1 tg1 fi2 st2 tg2 h
    simp [mainRun, check_search_fetch_none _ _ _ _ _ h]
  · intro r st1 tg1 fi2 st2 tg2 i d hf hlast htg
    simp [mainRun, check_search_new _ _ _ _ _ hf hlast, htg]

set_option maxRecDepth 10000 in
/-- Witness for C2 (amended): each of the three cases at a concrete
input — a raised fetch, a 500 fetch status, and a failed notify for a
new listing. -/
theorem fetch_errors_isolated_but_notify_aborts_witness :
    (mainRun .raised none 200 .raised none 200).processedSWE = true ∧
    (mainRun (.resp ⟨500, none⟩) none 200 .raised none 200).processedSWE = true ∧
    (mainRun (.resp ⟨200, some (.jarr [.jobj [("id", .jstr "A")]])⟩) none 500
        .raised none 200).processedSWE = false := by
  refine ⟨fetch_errors_isolated_but_notify_aborts.1 none 200 .raised none 200,
    fetch_errors_isolated_but_notify_aborts.2.1 ⟨500, none⟩ none 200 .raised none 200 rfl,
    fetch_errors_isolated_but_notify_aborts.2.2 ⟨200, some (.jarr [.jobj [("id", .jstr "A")]])⟩
      none 500 .raised none 200 "A"
      ("Unknown title\nUnknown location\nhttps://apply.careers.microsoft.com/careers?domain=microsoft.com&query=IC2&location=United%20States&start=0&sort_by=timestamp&filter_include_remote=1")
      (by rfl) (by simp [get_last_seen_id]) (by rfl)⟩

set_option maxRecDepth 10000 in
/-- C3 counterexample: the resolved identifier `" 5 "` carries
whitespace; `set_last_seen_id` writes it raw but `get_last_seen_id`
strips on read, so with an unchanged upstream top listing the second run
compares `"5"` against `" 5 "`, notifies again, and the claimed zero
notifications on the second run fails. -/
theorem untrimmed_id_renotifies :
    (check_search "IC2" SEARCH_URL_IC2
        (.resp ⟨200, some (.jarr [.jobj [("id", .jstr " 5 ")]])⟩) none 200).stateFile
      = some " 5 " ∧
    (check_search "IC2" SEARCH_URL_IC2
        (.resp ⟨200, some (.jarr [.jobj [("id", .jstr " 5 ")]])⟩) none 200).raised
      = false ∧
    (check_search "IC2" SEARCH_URL_IC2
        (.resp ⟨200, some (.jarr [.jobj [("id", .jstr " 5 ")]])⟩)
        (check_search "IC2" SEARCH_URL_IC2
          (.resp ⟨200, some (.jarr [.jobj [("id", .jstr " 5 ")]])⟩) none 200).stateFile
        200).notified.length = 1 := ⟨rfl, rfl, rfl⟩

/-- C3 (amended): for an identifier that equals its stripped form — true
of every real listing identifier — running `check_search` twice against
the same response, the first run's notify succeeding, yields zero
notifications on the second run and leaves the state file content
unchanged by the second run. -/
theorem second_run_idempotent_for_trimmed_id
    (r : HttpResponse) (url label : String) (st : Option String) (i d : String)
    (tg1 tg2 : Nat)
    (hf : fetch_top_job r url = some (i, d))
    (htrim : pyStrip i = i)
    (htg1 : raisesForStatus tg1 = false) :
    (check_search label url (.resp r)
        (check_search label url (.resp r) st tg1).stateFile tg2).notified = [] ∧
    (check_search label url (.resp r)
        (check_search label url (.resp r) st tg1).stateFile tg2).stateFile
      = (check_search label url (.resp r) st tg1).stateFile := by
  by_cases hlast : get_last_seen_id st = some i
  · rw [check_search_seen label url r st tg1 hf hlast]
    have h2 := check_search_seen label url r st tg2 hf hlast
    exact ⟨by rw [h2], by rw [h2]⟩
  · rw [check_search_new label url r st tg1 hf hlast]
    simp only [htg1, Bool.false_eq_true, if_false]
    have hlast2 : get_last_seen_id (some i) = some i := by
      simp [get_last_seen_id, htrim]
    have h2 := check_search_seen label url r (some i) tg2 hf hlast2
    exact ⟨by rw [h2], by rw [h2]⟩

set_option maxRecDepth 10000 in
/-- Witness for C3 (amended): the whitespace-free identifier `"123"` of
the spec's end-to-end example, no prior state, both notifies succeeding. -/
theorem second_run_idempotent_for_trimmed_id_witness :
    (check_search "Software Engineer (US)" SEARCH_URL_SWE
        (.resp ⟨200, some (.jobj [("results", .jarr [.jobj [("id", .jstr "123"),
            ("title", .jstr "SWE II"),
            ("locations", .jarr [.jobj [("city", .jstr "Redmond")]])]])])⟩)
        (check_search "Software Engineer (US)" SEARCH_URL_SWE
          (.resp ⟨200, some (.jobj [("results", .jarr [.jobj [("id", .jstr "123"),
              ("title", .jstr "SWE II"),
              ("locations", .jarr [.jobj [("city", .jstr "Redmond")]])]])])⟩)
          none 200).stateFile
        200).notified = [] :=
  (second_run_idempotent_for_trimmed_id
    ⟨200, some (.jobj [("results", .jarr [.jobj [("id", .jstr "123"),
        ("title", .jstr "SWE II"),
        ("locations", .jarr [.jobj [("city", .jstr "Redmond")]])]])])⟩
    SEARCH_URL_SWE "Software Engineer (US)" none "123"
    ("SWE II\nRedmond\nhttps://apply.careers.microsoft.com/careers?domain=microsoft.com&query=Software%20Engineer&location=United%20States&start=0&sort_by=timestamp&filter_include_remote=1")
    200 200 (by rfl) (by rfl) (by rfl)).1

/-- C4: with no prior state file, any fetched listing identifier is
treated as new — the notification for it is sent (exactly one message),
and after a successful send the state file content equals that
identifier. -/
theorem first_run_notifies_once_and_records_id
    (r : HttpResponse) (url label : String) (i d : String) (tg : Nat)
    (hf : fetch_top_job r url = some (i, d))
    (htg : raisesForStatus tg = false) :
    (check_search label url (.resp r) none tg).notified = [alertMsg label d] ∧
    (check_search label url (.resp r) none tg).stateFile = some i := by
  have hlast : get_last_seen_id none ≠ some i := by simp [get_last_seen_id]
  rw [check_search_new label url r none tg hf hlast]
  simp [htg]

set_option maxRecDepth 10000 in
/-- Witness for C4: the spec's end-to-end example — response
`\x7b"results": [\x7b"id": "123", "title": "SWE II", "locations":
[\x7b"city": "Redmond"\x7d]\x7d]\x7d`, no prior state — leaves the state
file `"123"` and one notification. -/
theorem first_run_notifies_once_and_records_id_witness :
    (check_search "Software Engineer (US)" SEARCH_URL_SWE
        (.resp ⟨200, some (.jobj [("results", .jarr [.jobj [("id", .jstr "123"),
            ("title", .jstr "SWE II"),
            ("locations", .jarr [.jobj [("city", .jstr "Redmond")]])]])])⟩)
        none 200).stateFile = some "123" :=
  (first_run_notifies_once_and_records_id
    ⟨200, some (.jobj [("results", .jarr [.jobj [("id", .jstr "123"),
        ("title", .jstr "SWE II"),
        ("locations", .jarr [.jobj [("city", .jstr "Redmond")]])]])])⟩
    SEARCH_URL_SWE "Software Engineer (US)" "123"
    ("SWE II\nRedmond\nhttps://apply.careers.microsoft.com/careers?domain=microsoft.com&query=Software%20Engineer&location=United%20States&start=0&sort_by=timestamp&filter_include_remote=1")
    200 (by rfl) (by rfl)).2

lemma extract_none_of_find_none {data : JValue} (url : String)
    (h : find_jobs_list data = none) : extract_top_job data url = none := by
  unfold extract_top_job
  rw [h]

lemma fetch_none_of_soft (r : HttpResponse) (url : String)
    (h : raisesForStatus r.status = true ∨ r.body = none ∨
      ∀ data, r.body = some data → find_jobs_list data = none) :
    fetch_top_job r url = none := by
  by_cases hr : raisesForStatus r.status = true
  · simp [fetch_top_job, hr]
  · rcases h with h | h | h
    · exact absurd h hr
    · simp [fetch_top_job, hr, h]
    · cases hb : r.body with
      | none => simp [fetch_top_job, hr, hb]
      | some data =>
        simp only [fetch_top_job, hr, Bool.false_eq_true, if_false, hb]
        exact extract_none_of_find_none url (h data hb)

/-- C9 counterexample: a 304 fetch status is non-2xx, yet
`raise_for_status` raises only for 4xx/5xx, so a 304 response with a
decodable jobs body notifies and writes state — contradicting the
claimed no-notification/no-write for every non-2xx status. -/
theorem status_304_with_jobs_notifies :
    (check_search "IC2" SEARCH_URL_IC2
        (.resp ⟨304, some (.jarr [.jobj [("id", .jstr "X")]])⟩) none 200).stateFile
      = some "X" ∧
    (check_search "IC2" SEARCH_URL_IC2
        (.resp ⟨304, some (.jarr [.jobj [("id", .jstr "X")]])⟩) none 200).notified.length
      = 1 := ⟨rfl, rfl⟩

/-- C9 (amended): if the fetch status is 4xx/5xx (what `raise_for_status`
raises on), or the body is not JSON-decodable, or no plausible record
collection is located, the run of that search sends no notification,
leaves the state file exactly unchanged, and raises nothing. -/
theorem hard_status_or_bad_body_or_no_jobs_is_noop
    (r : HttpResponse) (url label : String) (st : Option String) (tg : Nat)
    (h : raisesForStatus r.status = true ∨ r.body = none ∨
      ∀ data, r.body = some data → find_jobs_list data = none) :
    check_search label url (.resp r) st tg = ⟨[], st, false⟩ :=
  check_search_fetch_none label url r st tg (fetch_none_of_soft r url h)

/-- Witness for C9 (amended): a 500 response with no decodable body is a
no-op on empty prior state. -/
theorem hard_status_or_bad_body_or_no_jobs_is_noop_witness :
    check_search "IC2" SEARCH_URL_IC2 (.resp ⟨500, none⟩) none 200 = ⟨[], none, false⟩ :=
  hard_status_or_bad_body_or_no_jobs_is_noop ⟨500, none⟩ SEARCH_URL_IC2 "IC2" none 200
    (Or.inl rfl)

/-! ## The DFS characterization of `find_jobs_list` -/

lemma find_jobs_dfs_aux :
    ∀ n : Nat,
    (∀ t : JValue, sizeOf t ≤ n →
      find_jobs_list t = ((subtrees t).find? isJobsHead).map unArr) ∧
    (∀ l : List JValue, sizeOf l ≤ n →
      findInList l = ((subtreesList l).find? isJobsHead).map unArr) ∧
    (∀ fs : List (String × JValue), sizeOf fs ≤ n →
      findInFields fs = ((subtreesFields fs).find? isJobsHead).map unArr) := by
  intro n
  induction n using Nat.strong_induction_on with
  | _ n IH =>
  refine ⟨?_, ?_, ?_⟩
  · intro t ht
    cases t with
    | jnull => rfl
    | jbool b => rfl
    | jnum m => rfl
    | jstr s => rfl
    | jarr xs =>
      have hxs : sizeOf xs < n := by
        have : sizeOf (JValue.jarr xs) = 1 + sizeOf xs := by simp
        omega
      have hlist := (IH (sizeOf xs) hxs).2.1 xs le_rfl
      cases xs with
      | nil => rfl
      | cons c rest =>
        cases c with
        | jobj fs =>
          show some (JValue.jobj fs :: rest) = _
          simp [subtrees, List.find?_cons, isJobsHead, unArr]
        | jnull =>
          show findInList (JValue.jnull :: rest) = _
          rw [hlist]
          simp [subtrees, List.find?_cons, isJobsHead]
        | jbool b =>
          show findInList (JValue.jbool b :: rest) = _
          rw [hlist]
          simp [subtrees, List.find?_cons, isJobsHead]
        | jnum m =>
          show findInList (JValue.jnum m :: rest) = _
          rw [hlist]
          simp [subtrees, List.find?_cons, isJobsHead]
        | jstr s =>
          show findInList (JValue.jstr s :: rest) = _
          rw [hlist]
          simp [subtrees, List.find?_cons, isJobsHead]
        | jarr ys =>
          show findInList (JValue.jarr ys :: rest) = _
          rw [hlist]
          simp [subtrees, List.find?_cons, isJobsHead]
    | jobj fs =>
      have hfs : sizeOf fs < n := by
        have : sizeOf (JValue.jobj fs) = 1 + sizeOf fs := by simp
        omega
      have hflds := (IH (sizeOf fs) hfs).2.2 fs le_rfl
      show findInFields fs = _
      rw [hflds]
      simp [subtrees, List.find?_cons, isJobsHead]
  · intro l hl
    cases l with
    | nil => rfl
    | cons x xs =>
      have hx : sizeOf x < n := by
        have : sizeOf (x :: xs) = 1 + sizeOf x + sizeOf xs := by simp
        omega
      have hxs : sizeOf xs < n := by
        have : sizeOf (x :: xs) = 1 + sizeOf x + sizeOf xs := by simp
        omega
      have hhead := (IH (sizeOf x) hx).1 x le_rfl
      have htail := (IH (sizeOf xs) hxs).2.1 xs le_rfl
      show findInList (x :: xs) = _
      rw [show subtreesList (x :: xs) = subtrees x ++ subtreesList xs from rfl,
        List.find?_append]
      cases hfx : (subtrees x).find? isJobsHead with
      | some v =>
        rw [hfx] at hhead
        simp only [findInList, hhead, Option.map_some]
        simp
      | none =>
        rw [hfx] at hhead
        simp only [findInList, hhead, Option.map_none]
        simpa using htail
  · intro fs hfs
    cases fs with
    | nil => rfl
    | cons kv rest =>
      obtain ⟨k, v⟩ := kv
      have hv : sizeOf v < n := by
        have h1 : sizeOf ((k, v) :: rest) = 1 + sizeOf (k, v) + sizeOf rest := by simp
        have h2 : sizeOf (k, v) = 1 + sizeOf k + sizeOf v := by simp
        omega
      have hrest : sizeOf rest < n := by
        have h1 : sizeOf ((k, v) :: rest) = 1 + sizeOf (k, v) + sizeOf rest := by simp
        omega
      have hhead := (IH (sizeOf v) hv).1 v le_rfl
      have htail := (IH (sizeOf rest) hrest).2.2 rest le_rfl
      show findInFields ((k, v) :: rest) = _
      rw [show subtreesFields ((k, v) :: rest) = subtrees v ++ subtreesFields rest from rfl,
        List.find?_append]
      cases hfv : (subtrees v).find? isJobsHead with
      | some w =>
        rw [hfv] at hhead
        simp only [findInFields, hhead, Option.map_some]
        simp
      | none =>
        rw [hfv] at hhead
        simp only [findInFields, hhead, Option.map_none]
        simpa using htail

/-- `find_jobs_list` returns exactly the payload of the first subtree in
depth-first preorder that is a non-empty list with a dict first element. -/
lemma find_jobs_dfs (t : JValue) :
    find_jobs_list t = ((subtrees t).find? isJobsHead).map unArr :=
  (find_jobs_dfs_aux (sizeOf t)).1 t le_rfl

lemma isJobsHead_of_specCollection {v : JValue} (h : specCollection v = true) :
    isJobsHead v = true := by
  cases v with
  | jarr xs =>
    cases xs with
    | nil => simp [specCollection] at h
    | cons c rest =>
      simp only [specCollection, List.all_cons, List.isEmpty_cons, Bool.not_false,
        Bool.true_and, Bool.and_eq_true] at h
      cases c with
      | jobj fs => rfl
      | jnull => simp at h
      | jbool b => simp at h
      | jnum m => simp at h
      | jstr s => simp at h
      | jarr ys => simp at h
  | jnull => simp [specCollection] at h
  | jbool b => simp [specCollection] at h
  | jnum m => simp [specCollection] at h
  | jstr s => simp [specCollection] at h
  | jobj fs => simp [specCollection] at h

/-- C7 counterexample: the tree `[\x7b"a": 1\x7d, 2]` contains no
sequence whose elements are all mappings (so per the claim the outcome
should be "no listing found"), yet `find_jobs_list` only tests the first
element and returns the mixed list. -/
theorem mixed_list_returned_despite_spec :
    ((subtrees (JValue.jarr [.jobj [("a", .jnum 1)], .jnum 2])).all
      (fun v => !specCollection v)) = true ∧
    find_jobs_list (.jarr [.jobj [("a", .jnum 1)], .jnum 2])
      = some [.jobj [("a", .jnum 1)], .jnum 2] := ⟨rfl, rfl⟩

/-- C7 (amended): the depth-first search returns the payload of the
first subtree in preorder that is a non-empty sequence whose first
element is a mapping; when no subtree qualifies, the extractor returns
no listing (a non-fatal outcome), not a crash. -/
theorem dfs_returns_first_dict_headed_list (t : JValue) (url : String) :
    find_jobs_list t = ((subtrees t).find? isJobsHead).map unArr ∧
    ((subtrees t).find? isJobsHead = none → extract_top_job t url = none) := by
  refine ⟨find_jobs_dfs t, fun h => ?_⟩
  apply extract_none_of_find_none
  rw [find_jobs_dfs t, h]
  rfl

/-- Witness for C7 (amended): a bare scalar has no qualifying subtree
and extraction yields no listing. -/
theorem dfs_returns_first_dict_headed_list_witness :
    find_jobs_list (.jnum 0) = ((subtrees (.jnum 0)).find? isJobsHead).map unArr ∧
    extract_top_job (.jnum 0) "" = none := by
  have h := dfs_returns_first_dict_headed_list (.jnum 0) ""
  exact ⟨h.1, h.2 rfl⟩

/-- C5: every structured body containing, somewhere in the tree, a
non-empty collection whose elements are all records makes the extractor
return a listing whose identifier is a non-empty string (a truthy
candidate identifier field stringified, or the MD5 content-hash
fallback). -/
theorem record_collection_yields_nonempty_id (data : JValue) (url : String)
    (h : ∃ v ∈ subtrees data, specCollection v = true) :
    ∃ i d, extract_top_job data url = some (i, d) ∧ i ≠ "" := by
  obtain ⟨v, hv, hspec⟩ := h
  cases hf : (subtrees data).find? isJobsHead with
  | none =>
    rw [List.find?_eq_none] at hf
    exact absurd (isJobsHead_of_specCollection hspec) (by simpa using hf v hv)
  | some w =>
    have hw : isJobsHead w = true := List.find?_some hf
    cases w with
    | jarr xs =>
      cases xs with
      | nil => simp [isJobsHead] at hw
      | cons c rest =>
        cases c with
        | jobj g =>
          have hfind : find_jobs_list data = some (JValue.jobj g :: rest) := by
            rw [find_jobs_dfs, hf]
            rfl
          refine ⟨resolve_id g, resolve_desc g url, ?_, resolve_id_ne_empty g⟩
          unfold extract_top_job
          rw [hfind]
        | jnull => simp [isJobsHead] at hw
        | jbool b => simp [isJobsHead] at hw
        | jnum m => simp [isJobsHead] at hw
        | jstr s => simp [isJobsHead] at hw
        | jarr ys => simp [isJobsHead] at hw
    | jnull => simp [isJobsHead] at hw
    | jbool b => simp [isJobsHead] at hw
    | jnum m => simp [isJobsHead] at hw
    | jstr s => simp [isJobsHead] at hw
    | jobj fs => simp [isJobsHead] at hw

/-- Witness for C5: a body with one record `\x7b"id": "7"\x7d` inside a
nested collection yields a listing with a non-empty identifier. -/
theorem record_collection_yields_nonempty_id_witness :
    ∃ i d, extract_top_job (.jobj [("results", .jarr [.jobj [("id", .jstr "7")]])]) "u"
      = some (i, d) ∧ i ≠ "" :=
  record_collection_yields_nonempty_id _ "u"
    ⟨.jarr [.jobj [("id", .jstr "7")]], List.Mem.tail _ (List.Mem.head _), rfl⟩

/-- C6 counterexample: a structured location record sitting directly
under `locations` (not wrapped in a list) is neither a list nor a
string, so the code falls through to the sentinel instead of joining its
values into `"Seattle, WA"`. -/
theorem bare_location_record_is_unknown :
    resolve_location [("locations", .jobj [("city", .jstr "Seattle"), ("state", .jstr "WA")])]
      = "Unknown location" ∧ ("Unknown location" : String) ≠ "Seattle, WA" := by
  exact ⟨rfl, by decide⟩

/-- C6 (amended): when the resolved location value is a sequence whose
first element is the structured record `\x7bcity: "Seattle", state:
"WA"\x7d`, the normalized location is `"Seattle, WA"` (non-empty scalar
values joined); when the resolved location value is absent/`None`, an
empty sequence, or a blank string, the normalized location is the
sentinel `"Unknown location"`. -/
theorem location_list_record_join_and_sentinel :
    (resolve_location [("locations",
        .jarr [.jobj [("city", .jstr "Seattle"), ("state", .jstr "WA")]])]
      = "Seattle, WA") ∧
    (∀ job, pyOr (lookupJ job "locations") (lookupJ job "standardizedLocations") = .jnull →
      resolve_location job = "Unknown location") ∧
    (∀ job, pyOr (lookupJ job "locations") (lookupJ job "standardizedLocations") = .jarr [] →
      resolve_location job = "Unknown location") ∧
    (∀ job s, pyOr (lookupJ job "locations") (lookupJ job "standardizedLocations") = .jstr s →
      pyStrip s = "" → resolve_location job = "Unknown location") := by
  refine ⟨rfl, ?_, ?_, ?_⟩
  · intro job h
    unfold resolve_location
    rw [h]
  · intro job h
    unfold resolve_location
    rw [h]
  · intro job s h hs
    unfold resolve_location
    rw [h]
    simp [hs]

/-- Witness for C6 (amended): the sentinel cases at concrete inputs —
both keys absent, an empty list, and a blank string. -/
theorem location_list_record_join_and_sentinel_witness :
    resolve_location [] = "Unknown location" ∧
    resolve_location [("standardizedLocations", .jarr [])] = "Unknown location" ∧
    resolve_location [("locations", .jstr " ")] = "Unknown location" := by
  have h := location_list_record_join_and_sentinel
  exact ⟨h.2.1 [] rfl, h.2.2.1 [("standardizedLocations", .jarr [])] rfl,
    h.2.2.2 [("locations", .jstr " ")] " " rfl rfl⟩

/-- C10: when every candidate identifier field (`id`, `displayJobId`,
`position_id`, `positionId`) is absent or falsy, the returned identifier
is the 32-character MD5 hex digest of the record's canonical
(`sort_keys=True`) serialization — in particular never the string `"0"`
and never empty. -/
theorem falsy_id_fields_use_md5_hash (job : List (String × JValue))
    (h : (idChain job).truthy = false) :
    resolve_id job = md5Hex (dumps (canonize (.jobj job))) ∧
    (resolve_id job).length = 32 ∧ resolve_id job ≠ "0" ∧ resolve_id job ≠ "" := by
  have he : resolve_id job = md5Hex (dumps (canonize (.jobj job))) := by
    simp only [resolve_id]
    rw [if_neg (by rw [h]; exact Bool.false_ne_true)]
  refine ⟨he, by rw [he, md5Hex_length], ?_, ?_⟩
  · intro h0
    have h32 := md5Hex_length (dumps (canonize (.jobj job)))
    rw [← he, h0] at h32
    exact absurd h32 (by decide)
  · intro h0
    have h32 := md5Hex_length (dumps (canonize (.jobj job)))
    rw [← he, h0] at h32
    exact absurd h32 (by decide)

/-- Witness for C10: the record `\x7b"id": 0, "displayJobId": ""\x7d`
has only falsy candidate identifier fields and gets a 32-character hash
identifier. -/
theorem falsy_id_fields_use_md5_hash_witness :
    (idChain [("id", .jnum 0), ("displayJobId", .jstr "")]).truthy = false ∧
    (resolve_id [("id", .jnum 0), ("displayJobId", .jstr "")]).length = 32 := by
  have h := falsy_id_fields_use_md5_hash [("id", .jnum 0), ("displayJobId", .jstr "")] (by rfl)
  exact ⟨rfl, h.2.1⟩

/-! ## Field-order invariance of the hash identifier -/

/-- Two JSON values that differ only in the order of their (possibly
nested) object fields: scalars must be equal, arrays elementwise related,
and an object's fields a permutation (`gsm` realises it) of fields with
the same keys and related values. -/
inductive JEquiv : JValue → JValue → Prop where
  | jnull : JEquiv .jnull .jnull
  | jbool (b : Bool) : JEquiv (.jbool b) (.jbool b)
  | jnum (n : Int) : JEquiv (.jnum n) (.jnum n)
  | jstr (s : String) : JEquiv (.jstr s) (.jstr s)
  | jarr {xs ys : List JValue} :
      List.Forall₂ JEquiv xs ys → JEquiv (.jarr xs) (.jarr ys)
  | jobj {fs gs gsm : List (String × JValue)} :
      List.Perm fs gsm →
      gsm.map Prod.fst = gs.map Prod.fst →
      List.Forall₂ JEquiv (gsm.map Prod.snd) (gs.map Prod.snd) →
      JEquiv (.jobj fs) (.jobj gs)

mutual
/-- Every object in the tree has pairwise distinct keys — true of any
value produced by `resp.json()`, since Python dicts cannot repeat keys. -/
def keysNodupB : JValue → Bool
  | .jnull => true
  | .jbool _ => true
  | .jnum _ => true
  | .jstr _ => true
  | .jarr xs => keysNodupList xs
  | .jobj fs => decide (fs.map Prod.fst).Nodup && keysNodupFields fs

/-- `keysNodupB` over a list of values. -/
def keysNodupList : List JValue → Bool
  | [] => true
  | x :: xs => keysNodupB x && keysNodupList xs

/-- `keysNodupB` over the values of an object's fields. -/
def keysNodupFields : List (String × JValue) → Bool
  | [] => true
  | (_, v) :: fs => keysNodupB v && keysNodupFields fs
end

lemma canonizeFields_eq_map (l : List (String × JValue)) :
    canonizeFields l = l.map (fun p => (p.1, canonize p.2)) := by
  induction l with
  | nil => rfl
  | cons p rest ih =>
    obtain ⟨k, v⟩ := p
    simp [canonizeFields, ih]

lemma keys_canonizeFields (l : List (String × JValue)) :
    (canonizeFields l).map Prod.fst = l.map Prod.fst := by
  rw [canonizeFields_eq_map, List.map_map]
  rfl

lemma keysNodupFields_iff (l : List (String × JValue)) :
    keysNodupFields l = true ↔ ∀ p ∈ l, keysNodupB p.2 = true := by
  induction l with
  | nil => simp [keysNodupFields]
  | cons p rest ih =>
    obtain ⟨k, v⟩ := p
    simp [keysNodupFields, Bool.and_eq_true, ih]

lemma keysNodupFields_of_perm {l₁ l₂ : List (String × JValue)}
    (hp : l₁.Perm l₂) (h : keysNodupFields l₁ = true) : keysNodupFields l₂ = true := by
  rw [keysNodupFields_iff] at h ⊢
  intro p hm
  exact h p (hp.mem_iff.mpr hm)

lemma sorted_keyLT_of_sorted_keyLE_nodup {l : List (String × JValue)}
    (hs : l.Sorted keyLE) (hn : (l.map Prod.fst).Nodup) :
    l.Sorted (fun p q => keyLE p q ∧ p.1 ≠ q.1) := by
  have hne : l.Pairwise (fun p q => p.1 ≠ q.1) := List.pairwise_map.mp hn
  exact hs.and hne

lemma canonize_equiv_aux : ∀ n : Nat,
    (∀ a b : JValue, sizeOf a ≤ n → JEquiv a b → keysNodupB a = true →
      canonize a = canonize b) ∧
    (∀ xs ys : List JValue, sizeOf xs ≤ n → List.Forall₂ JEquiv xs ys →
      keysNodupList xs = true → canonizeList xs = canonizeList ys) ∧
    (∀ fs gs : List (String × JValue), sizeOf fs ≤ n →
      fs.map Prod.fst = gs.map Prod.fst →
      List.Forall₂ JEquiv (fs.map Prod.snd) (gs.map Prod.snd) →
      keysNodupFields fs = true → canonizeFields fs = canonizeFields gs) := by
  intro n
  induction n using Nat.strong_induction_on with
  | _ n IH =>
  refine ⟨?_, ?_, ?_⟩
  · intro a b ha h hk
    cases h with
    | jnull => rfl
    | jbool b => rfl
    | jnum m => rfl
    | jstr s => rfl
    | @jarr xs ys hfa =>
      have hxs : sizeOf xs < n := by
        have : sizeOf (JValue.jarr xs) = 1 + sizeOf xs := by simp
        omega
      have hkl : keysNodupList xs = true := by simpa [keysNodupB] using hk
      simp only [canonize]
      rw [(IH (sizeOf xs) hxs).2.1 xs ys le_rfl hfa hkl]
    | @jobj fs gs gsm hperm hkeys hvals =>
      have hfs : sizeOf fs < n := by
        have : sizeOf (JValue.jobj fs) = 1 + sizeOf fs := by simp
        omega
      have hgsm : sizeOf gsm < n := by
        rw [← hperm.sizeOf_eq_sizeOf]
        exact hfs
      rw [keysNodupB, Bool.and_eq_true] at hk
      have hknodup : (fs.map Prod.fst).Nodup := of_decide_eq_true hk.1
      have hkfs : keysNodupFields fs = true := hk.2
      have hkgsm : keysNodupFields gsm = true := keysNodupFields_of_perm hperm hkfs
      have hmid : canonizeFields gsm = canonizeFields gs :=
        (IH (sizeOf gsm) hgsm).2.2 gsm gs le_rfl hkeys hvals hkgsm
      have hpermc : (canonizeFields fs).Perm (canonizeFields gs) := by
        rw [← hmid, canonizeFields_eq_map, canonizeFields_eq_map]
        exact hperm.map _
      -- both sorted lists are permutations of each other with strictly
      -- increasing keys, hence equal
      have hpermL : (List.insertionSort keyLE (canonizeFields fs)).Perm
          (List.insertionSort keyLE (canonizeFields gs)) :=
        ((List.perm_insertionSort keyLE (canonizeFields fs)).trans hpermc).trans
          (List.perm_insertionSort keyLE (canonizeFields gs)).symm
      have hn1 : ((List.insertionSort keyLE (canonizeFields fs)).map Prod.fst).Nodup := by
        have hp : ((List.insertionSort keyLE (canonizeFields fs)).map Prod.fst).Perm
            (fs.map Prod.fst) := by
          rw [← keys_canonizeFields fs]
          exact (List.perm_insertionSort keyLE (canonizeFields fs)).map _
        exact hp.nodup_iff.mpr hknodup
      have hn2 : ((List.insertionSort keyLE (canonizeFields gs)).map Prod.fst).Nodup := by
        have hp : ((List.insertionSort keyLE (canonizeFields gs)).map Prod.fst).Perm
            (fs.map Prod.fst) :=
          ((List.perm_insertionSort keyLE (canonizeFields gs)).map _).trans
            ((hpermc.map _).symm.trans (by rw [keys_canonizeFields]))
        exact hp.nodup_iff.mpr hknodup
      have hs1 := List.sorted_insertionSort keyLE (canonizeFields fs)
      have hs2 := List.sorted_insertionSort keyLE (canonizeFields gs)
      have hlt1 := sorted_keyLT_of_sorted_keyLE_nodup hs1 hn1
      have hlt2 := sorted_keyLT_of_sorted_keyLE_nodup hs2 hn2
      have : IsAntisymm (String × JValue) (fun p q => keyLE p q ∧ p.1 ≠ q.1) :=
        ⟨fun _ _ h1 h2 => absurd (strLeB_antisymm h1.1 h2.1) h1.2⟩
      simp only [canonize]
      rw [List.eq_of_perm_of_sorted hpermL hlt1 hlt2]
  · intro xs ys hsz hfa hk
    cases hfa with
    | nil => rfl
    | @cons x y xs' ys' hxy htail =>
      have hx : sizeOf x < n := by
        have : sizeOf (x :: xs') = 1 + sizeOf x + sizeOf xs' := by simp
        omega
      have hxs : sizeOf xs' < n := by
        have : sizeOf (x :: xs') = 1 + sizeOf x + sizeOf xs' := by simp
        omega
      rw [keysNodupList, Bool.and_eq_true] at hk
      simp only [canonizeList]
      rw [(IH (sizeOf x) hx).1 x y le_rfl hxy hk.1,
        (IH (sizeOf xs') hxs).2.1 xs' ys' le_rfl htail hk.2]
  · intro fs gs hsz hkeys hvals hk
    cases fs with
    | nil =>
      have : gs = [] := by
        have h0 : gs.map Prod.fst = [] := by simpa using hkeys.symm
        exact List.map_eq_nil_iff.mp h0
      rw [this]
    | cons p fs' =>
      obtain ⟨k, v⟩ := p
      cases gs with
      | nil => simp at hkeys
      | cons q gs' =>
        obtain ⟨k2, w⟩ := q
        simp only [List.map_cons] at hkeys hvals
        injection hkeys with hk1 hkeys'
        cases hvals with
        | cons hvw htail =>
          have hv : sizeOf v < n := by
            have h1 : sizeOf ((k, v) :: fs') = 1 + sizeOf (k, v) + sizeOf fs' := by simp
            have h2 : sizeOf (k, v) = 1 + sizeOf k + sizeOf v := by simp
            omega
          have hfs' : sizeOf fs' < n := by
            have h1 : sizeOf ((k, v) :: fs') = 1 + sizeOf (k, v) + sizeOf fs' := by simp
            omega
          rw [keysNodupFields, Bool.and_eq_true] at hk
          simp only [canonizeFields]
          rw [hk1, (IH (sizeOf v) hv).1 v w le_rfl hvw hk.1,
            (IH (sizeOf fs') hfs').2.2 fs' gs' le_rfl hkeys' htail hk.2]

/-- Differing only in (possibly nested) field order, with distinct keys,
gives the same canonical serialization input. -/
lemma canonize_eq_of_equiv {a b : JValue} (h : JEquiv a b)
    (hk : keysNodupB a = true) : canonize a = canonize b :=
  (canonize_equiv_aux (sizeOf a)).1 a b le_rfl h hk

/-- C8: the hash fallback identifier is a pure (hence deterministic)
function of the record's content, and for two records with no usable
candidate identifier field that differ only in the order of their
(possibly nested) fields — keys being distinct, as in any Python dict —
the derived identifier is the same; it equals the MD5 hex digest of the
order-independent (`sort_keys=True`) serialization. -/
theorem hash_id_invariant_under_field_reorder
    (fs gs : List (String × JValue))
    (h : JEquiv (.jobj fs) (.jobj gs))
    (hk : keysNodupB (.jobj fs) = true)
    (hid1 : (idChain fs).truthy = false)
    (hid2 : (idChain gs).truthy = false) :
    resolve_id fs = resolve_id gs ∧
    resolve_id fs = md5Hex (dumps (canonize (.jobj fs))) := by
  have hc : canonize (.jobj fs) = canonize (.jobj gs) := canonize_eq_of_equiv h hk
  have e1 : resolve_id fs = md5Hex (dumps (canonize (.jobj fs))) := by
    simp only [resolve_id]
    rw [if_neg (by rw [hid1]; exact Bool.false_ne_true)]
  have e2 : resolve_id gs = md5Hex (dumps (canonize (.jobj gs))) := by
    simp only [resolve_id]
    rw [if_neg (by rw [hid2]; exact Bool.false_ne_true)]
  exact ⟨by rw [e1, e2, hc], e1⟩

/-- Witness for C8: two concrete records with a nested value, reordered
both at the top level and inside the nested record, share one hash
identifier. -/
theorem hash_id_invariant_under_field_reorder_witness :
    resolve_id [("b", .jnum 1), ("a", .jobj [("y", .jstr "v"), ("x", .jnum 2)])]
      = resolve_id [("a", .jobj [("x", .jnum 2), ("y", .jstr "v")]), ("b", .jnum 1)] :=
  (hash_id_invariant_under_field_reorder
    [("b", .jnum 1), ("a", .jobj [("y", .jstr "v"), ("x", .jnum 2)])]
    [("a", .jobj [("x", .jnum 2), ("y", .jstr "v")]), ("b", .jnum 1)]
    (@JEquiv.jobj
      [("b", .jnum 1), ("a", JValue.jobj [("y", .jstr "v"), ("x", .jnum 2)])]
      [("a", JValue.jobj [("x", .jnum 2), ("y", .jstr "v")]), ("b", .jnum 1)]
      [("a", JValue.jobj [("y", .jstr "v"), ("x", .jnum 2)]), ("b", .jnum 1)]
      (List.Perm.swap ("a", JValue.jobj [("y", .jstr "v"), ("x", .jnum 2)])
        ("b", .jnum 1) [])
      rfl
      (List.Forall₂.cons
        (@JEquiv.jobj
          [("y", .jstr "v"), ("x", JValue.jnum 2)]
          [("x", JValue.jnum 2), ("y", .jstr "v")]
          [("x", JValue.jnum 2), ("y", .jstr "v")]
          (List.Perm.swap ("x", JValue.jnum 2) ("y", .jstr "v") [])
          rfl
          (List.Forall₂.cons (JEquiv.jnum 2)
            (List.Forall₂.cons (JEquiv.jstr "v") List.Forall₂.nil)))
        (List.Forall₂.cons (JEquiv.jnum 1) List.Forall₂.nil)))
    (by rfl) rfl rfl).1

set_option maxRecDepth 10000 in
/-- RFC 1321 test vector certifying the MD5 model. -/
lemma md5Hex_rfc_empty : md5Hex "" = "d41d8cd98f00b204e9800998ecf8427e" := by decide

set_option maxRecDepth 10000 in
/-- RFC 1321 test vector certifying the MD5 model. -/
lemma md5Hex_rfc_abc : md5Hex "abc" = "900150983cd24fb0d6963f7d28e17f72" := by decide

set_option maxRecDepth 10000 in
/-- The hash input on the spec's canonical example record, certifying
the `sort_keys=True` serialization model: Python's
`json.dumps({"id": 0, "b": "x"}, sort_keys=True)`. -/
lemma dumps_canonize_example :
    dumps (canonize (.jobj [("id", .jnum 0), ("b", .jstr "x")]))
      = "\x7b\"b\": \"x\", \"id\": 0\x7d" := by decide
